import Mathlib

/-!
Verification of the repository's two core subsystems against their
natural-language specification:

* the hash-verification strategy (`crates/uv-types/src/hash.rs`), and
* the PEP 517 build-backend daemon protocol (`crates/puffin-build/src/daemon.rs`).

Rust enums and structs are embedded as Lean inductives/structures; the
`FxHashMap` is embedded as an association list whose `mapLookup` returns the
most recently inserted binding (`insert` replaces existing bindings).
Fallible Rust code returns `Except`; a Rust panic is modelled as `Option.none`
around the result type.
-/

deriving instance DecidableEq for Except

/-! ## Distribution identity and hash digests -/

/-- `distribution_types::PackageId` (`src/` only uses its two constructors
and equality): a registry package name or a URL. -/
inductive PackageId where
  | registry (name : String)
  | url (u : String)
deriving DecidableEq

/-- `PackageId::from_registry`. -/
def PackageId.fromRegistry (name : String) : PackageId :=
  PackageId.registry name

/-- Modelled from the spec: `PackageId::from_url` (in `distribution_types`,
not under `src/`) canonicalizes the URL; the canonical form is modelled as
the URL string itself, which is faithful for all claims (they never relate
two distinct URL spellings). -/
def PackageId.fromUrl (u : String) : PackageId :=
  PackageId.url u

/-- `pypi_types::HashDigest`: a pair `(algorithm, hex)` (spec section 3). -/
structure HashDigest where
  algorithm : String
  digest : String
deriving DecidableEq

/-- `pypi_types::HashError` (not under `src/`); only its existence matters. -/
inductive HashError where
  | invalid (s : String)
deriving DecidableEq

/-- Lowercase hexadecimal character. -/
def hexChar (c : Char) : Bool :=
  c.isDigit || ('a' ≤ c && c ≤ 'f')

/-- Modelled from the spec: the hex length each algorithm requires
(md5 32, sha256 64, sha384 96, sha512 128); unknown algorithms fail. -/
def algoLength (a : String) : Option Nat :=
  if a = "md5" then some 32
  else if a = "sha256" then some 64
  else if a = "sha384" then some 96
  else if a = "sha512" then some 128
  else none

/-- Split a character list at the first occurrence of `sep`. -/
def splitOnceChar (sep : Char) : List Char → Option (List Char × List Char)
  | [] => none
  | c :: rest =>
    if c = sep then some ([], rest)
    else
      match splitOnceChar sep rest with
      | none => none
      | some (a, b) => some (c :: a, b)

/-- Modelled from the spec: `HashDigest::from_str` (`pypi_types` is not under
`src/`) parses `ALGO:HEX`, failing when the algorithm is unknown or the hex
length is wrong (spec section 3). -/
def HashDigest.fromStr (s : String) : Except HashError HashDigest :=
  match splitOnceChar ':' s.data with
  | none => Except.error (HashError.invalid s)
  | some (a, h) =>
    match algoLength ⟨a⟩ with
    | none => Except.error (HashError.invalid s)
    | some n =>
      if h.length = n ∧ h.all hexChar = true then Except.ok ⟨⟨a⟩, ⟨h⟩⟩
      else Except.error (HashError.invalid s)

/-! ## The digest map

`FxHashMap<PackageId, Vec<HashDigest>>` is embedded as an association list:
`insert` replaces any existing binding in the hash map, modelled here by
consing, with `mapLookup` returning the most recent binding. -/

abbrev HashMapL := List (PackageId × List HashDigest)

/-- `HashMap::get`, returning the most recently inserted binding. -/
def mapLookup : HashMapL → PackageId → Option (List HashDigest)
  | [], _ => none
  | (k, v) :: rest, pid => if k = pid then some v else mapLookup rest pid

/-- `HashMap::insert` (replaces any existing binding, w.r.t. `mapLookup`). -/
def mapInsert (m : HashMapL) (k : PackageId) (v : List HashDigest) : HashMapL :=
  (k, v) :: m

/-- `HashMap::contains_key`. -/
def mapContainsKey (m : HashMapL) (k : PackageId) : Bool :=
  (mapLookup m k).isSome

/-! ## Hash policy and strategy -/

/-- `distribution_types::HashPolicy` (spec section 3). -/
inductive HashPolicy where
  | None
  | Generate
  | Validate (hashes : List HashDigest)
deriving DecidableEq

/-- `uv_types::HashStrategy` (hash.rs lines 11-26). -/
inductive HashStrategy where
  | None
  | Generate
  | Verify (hashes : HashMapL)
  | Require (hashes : HashMapL)
deriving DecidableEq

/-- `HashStrategy::get` (hash.rs lines 30-48); the generic distribution is
modelled by its `package_id()`, the only thing `get` uses. -/
def HashStrategy.get (s : HashStrategy) (pid : PackageId) : HashPolicy :=
  match s with
  | HashStrategy.None => HashPolicy.None
  | HashStrategy.Generate => HashPolicy.Generate
  | HashStrategy.Verify hashes =>
    match mapLookup hashes pid with
    | some l => HashPolicy.Validate l
    | none => HashPolicy.None
  | HashStrategy.Require hashes =>
    HashPolicy.Validate ((mapLookup hashes pid).getD [])

/-- `HashStrategy::get_package` (hash.rs lines 51-69). -/
def HashStrategy.get_package (s : HashStrategy) (name : String) : HashPolicy :=
  match s with
  | HashStrategy.None => HashPolicy.None
  | HashStrategy.Generate => HashPolicy.Generate
  | HashStrategy.Verify hashes =>
    match mapLookup hashes (PackageId.fromRegistry name) with
    | some l => HashPolicy.Validate l
    | none => HashPolicy.None
  | HashStrategy.Require hashes =>
    HashPolicy.Validate ((mapLookup hashes (PackageId.fromRegistry name)).getD [])

/-- `HashStrategy::get_url` (hash.rs lines 72-90). -/
def HashStrategy.get_url (s : HashStrategy) (u : String) : HashPolicy :=
  match s with
  | HashStrategy.None => HashPolicy.None
  | HashStrategy.Generate => HashPolicy.Generate
  | HashStrategy.Verify hashes =>
    match mapLookup hashes (PackageId.fromUrl u) with
    | some l => HashPolicy.Validate l
    | none => HashPolicy.None
  | HashStrategy.Require hashes =>
    HashPolicy.Validate ((mapLookup hashes (PackageId.fromUrl u)).getD [])

/-- `HashStrategy::allows_package` (hash.rs lines 93-100). -/
def HashStrategy.allows_package (s : HashStrategy) (name : String) : Bool :=
  match s with
  | HashStrategy.None => true
  | HashStrategy.Generate => true
  | HashStrategy.Verify _ => true
  | HashStrategy.Require hashes => mapContainsKey hashes (PackageId.fromRegistry name)

/-- `HashStrategy::allows_url` (hash.rs lines 103-110). -/
def HashStrategy.allows_url (s : HashStrategy) (u : String) : Bool :=
  match s with
  | HashStrategy.None => true
  | HashStrategy.Generate => true
  | HashStrategy.Verify _ => true
  | HashStrategy.Require hashes => mapContainsKey hashes (PackageId.fromUrl u)

/-! ## Claim C1 -/

/-- C1: for every `HashStrategy` value and every distribution, registry
package name, or URL: `get`/`get_package`/`get_url` return `HashPolicy.None`
for the `None` strategy, `HashPolicy.Generate` for the `Generate` strategy;
for a `Verify` map `Validate(list)` when the package identity is a key of the
map and `None` when absent; for a `Require` map `Validate(list)` when present
and `Validate([])` when absent. `allows_package` and `allows_url` return
`true` for every strategy except `Require`, where they return `true` iff the
package identity is a key of the map. -/
theorem hash_strategy_policy_dispatch :
    (∀ pid, HashStrategy.get HashStrategy.None pid = HashPolicy.None) ∧
    (∀ pid, HashStrategy.get HashStrategy.Generate pid = HashPolicy.Generate) ∧
    (∀ m pid l, mapLookup m pid = some l →
      HashStrategy.get (HashStrategy.Verify m) pid = HashPolicy.Validate l) ∧
    (∀ m pid, mapLookup m pid = none →
      HashStrategy.get (HashStrategy.Verify m) pid = HashPolicy.None) ∧
    (∀ m pid l, mapLookup m pid = some l →
      HashStrategy.get (HashStrategy.Require m) pid = HashPolicy.Validate l) ∧
    (∀ m pid, mapLookup m pid = none →
      HashStrategy.get (HashStrategy.Require m) pid = HashPolicy.Validate []) ∧
    (∀ n, HashStrategy.get_package HashStrategy.None n = HashPolicy.None) ∧
    (∀ n, HashStrategy.get_package HashStrategy.Generate n = HashPolicy.Generate) ∧
    (∀ m n l, mapLookup m (PackageId.fromRegistry n) = some l →
      HashStrategy.get_package (HashStrategy.Verify m) n = HashPolicy.Validate l) ∧
    (∀ m n, mapLookup m (PackageId.fromRegistry n) = none →
      HashStrategy.get_package (HashStrategy.Verify m) n = HashPolicy.None) ∧
    (∀ m n l, mapLookup m (PackageId.fromRegistry n) = some l →
      HashStrategy.get_package (HashStrategy.Require m) n = HashPolicy.Validate l) ∧
    (∀ m n, mapLookup m (PackageId.fromRegistry n) = none →
      HashStrategy.get_package (HashStrategy.Require m) n = HashPolicy.Validate []) ∧
    (∀ u, HashStrategy.get_url HashStrategy.None u = HashPolicy.None) ∧
    (∀ u, HashStrategy.get_url HashStrategy.Generate u = HashPolicy.Generate) ∧
    (∀ m u l, mapLookup m (PackageId.fromUrl u) = some l →
      HashStrategy.get_url (HashStrategy.Verify m) u = HashPolicy.Validate l) ∧
    (∀ m u, mapLookup m (PackageId.fromUrl u) = none →
      HashStrategy.get_url (HashStrategy.Verify m) u = HashPolicy.None) ∧
    (∀ m u l, mapLookup m (PackageId.fromUrl u) = some l →
      HashStrategy.get_url (HashStrategy.Require m) u = HashPolicy.Validate l) ∧
    (∀ m u, mapLookup m (PackageId.fromUrl u) = none →
      HashStrategy.get_url (HashStrategy.Require m) u = HashPolicy.Validate []) ∧
    (∀ n, HashStrategy.allows_package HashStrategy.None n = true) ∧
    (∀ n, HashStrategy.allows_package HashStrategy.Generate n = true) ∧
    (∀ m n, HashStrategy.allows_package (HashStrategy.Verify m) n = true) ∧
    (∀ m n, HashStrategy.allows_package (HashStrategy.Require m) n = true ↔
      ∃ l, mapLookup m (PackageId.fromRegistry n) = some l) ∧
    (∀ u, HashStrategy.allows_url HashStrategy.None u = true) ∧
    (∀ u, HashStrategy.allows_url HashStrategy.Generate u = true) ∧
    (∀ m u, HashStrategy.allows_url (HashStrategy.Verify m) u = true) ∧
    (∀ m u, HashStrategy.allows_url (HashStrategy.Require m) u = true ↔
      ∃ l, mapLookup m (PackageId.fromUrl u) = some l) := by
  refine ⟨fun _ => rfl, fun _ => rfl, ?_, ?_, ?_, ?_,
    fun _ => rfl, fun _ => rfl, ?_, ?_, ?_, ?_,
    fun _ => rfl, fun _ => rfl, ?_, ?_, ?_, ?_,
    fun _ => rfl, fun _ => rfl, fun _ _ => rfl, ?_,
    fun _ => rfl, fun _ => rfl, fun _ _ => rfl, ?_⟩ <;>
    intro m x
  · intro l h; simp [HashStrategy.get, h]
  · intro h; simp [HashStrategy.get, h]
  · intro l h; simp [HashStrategy.get, h]
  · intro h; simp [HashStrategy.get, h]
  · intro l h; simp [HashStrategy.get_package, h]
  · intro h; simp [HashStrategy.get_package, h]
  · intro l h; simp [HashStrategy.get_package, h]
  · intro h; simp [HashStrategy.get_package, h]
  · intro l h; simp [HashStrategy.get_url, h]
  · intro h; simp [HashStrategy.get_url, h]
  · intro l h; simp [HashStrategy.get_url, h]
  · intro h; simp [HashStrategy.get_url, h]
  · simp [HashStrategy.allows_package, mapContainsKey, Option.isSome_iff_exists]
  · simp [HashStrategy.allows_url, mapContainsKey, Option.isSome_iff_exists]

/-- Closed witness for C1, exercising each hypothesis-bearing conjunct at a
concrete strategy and package identity. -/
theorem hash_strategy_policy_dispatch_witness :
    HashStrategy.get
      (HashStrategy.Verify [(PackageId.registry "albatross", [⟨"sha256", "ff"⟩])])
      (PackageId.registry "albatross") = HashPolicy.Validate [⟨"sha256", "ff"⟩] ∧
    HashStrategy.get
      (HashStrategy.Verify [(PackageId.registry "albatross", [⟨"sha256", "ff"⟩])])
      (PackageId.registry "walrus") = HashPolicy.None ∧
    HashStrategy.get
      (HashStrategy.Require [(PackageId.registry "albatross", [⟨"sha256", "ff"⟩])])
      (PackageId.registry "albatross") = HashPolicy.Validate [⟨"sha256", "ff"⟩] ∧
    HashStrategy.get
      (HashStrategy.Require [(PackageId.registry "albatross", [⟨"sha256", "ff"⟩])])
      (PackageId.registry "walrus") = HashPolicy.Validate [] ∧
    HashStrategy.get_package
      (HashStrategy.Verify [(PackageId.registry "albatross", [⟨"sha256", "ff"⟩])])
      "albatross" = HashPolicy.Validate [⟨"sha256", "ff"⟩] ∧
    HashStrategy.get_package
      (HashStrategy.Verify [(PackageId.registry "albatross", [⟨"sha256", "ff"⟩])])
      "walrus" = HashPolicy.None ∧
    HashStrategy.get_package
      (HashStrategy.Require [(PackageId.registry "albatross", [⟨"sha256", "ff"⟩])])
      "albatross" = HashPolicy.Validate [⟨"sha256", "ff"⟩] ∧
    HashStrategy.get_package
      (HashStrategy.Require [(PackageId.registry "albatross", [⟨"sha256", "ff"⟩])])
      "walrus" = HashPolicy.Validate [] ∧
    HashStrategy.get_url
      (HashStrategy.Verify [(PackageId.url "https://a/b.whl", [⟨"sha256", "ff"⟩])])
      "https://a/b.whl" = HashPolicy.Validate [⟨"sha256", "ff"⟩] ∧
    HashStrategy.get_url
      (HashStrategy.Verify [(PackageId.url "https://a/b.whl", [⟨"sha256", "ff"⟩])])
      "https://c/d.whl" = HashPolicy.None ∧
    HashStrategy.get_url
      (HashStrategy.Require [(PackageId.url "https://a/b.whl", [⟨"sha256", "ff"⟩])])
      "https://a/b.whl" = HashPolicy.Validate [⟨"sha256", "ff"⟩] ∧
    HashStrategy.get_url
      (HashStrategy.Require [(PackageId.url "https://a/b.whl", [⟨"sha256", "ff"⟩])])
      "https://c/d.whl" = HashPolicy.Validate [] ∧
    HashStrategy.allows_package
      (HashStrategy.Require [(PackageId.registry "albatross", [⟨"sha256", "ff"⟩])])
      "albatross" = true ∧
    HashStrategy.allows_url
      (HashStrategy.Require [(PackageId.url "https://a/b.whl", [⟨"sha256", "ff"⟩])])
      "https://a/b.whl" = true := by
  obtain ⟨h1, h2, h3, h4, h5, h6, h7, h8, h9, h10, h11, h12, h13, h14, h15,
    h16, h17, h18, h19, h20, h21, h22, h23, h24, h25, h26⟩ :=
    hash_strategy_policy_dispatch
  refine ⟨h3 _ _ _ (by decide), h4 _ _ (by decide), h5 _ _ _ (by decide),
    h6 _ _ (by decide), h9 _ _ _ (by decide), h10 _ _ (by decide),
    h11 _ _ _ (by decide), h12 _ _ (by decide), h15 _ _ _ (by decide),
    h16 _ _ (by decide), h17 _ _ _ (by decide), h18 _ _ (by decide),
    (h22 _ _).mpr ⟨[⟨"sha256", "ff"⟩], by decide⟩,
    (h26 _ _).mpr ⟨[⟨"sha256", "ff"⟩], by decide⟩⟩

/-! ## Requirements and marker evaluation -/

/-- `pep440_rs::Operator` (the variants used by version specifiers). -/
inductive Operator where
  | equal
  | exactEqual
  | notEqual
  | tildeEqual
  | lessThan
  | lessThanEqual
  | greaterThan
  | greaterThanEqual
deriving DecidableEq

/-- A single pep440 version specifier: an operator and a version literal. -/
structure VersionSpecifier where
  op : Operator
  version : String
deriving DecidableEq

/-- `pypi_types::RequirementSource`: registry (with its specifier list),
direct URL, git, or local path (spec section 9, design note on tagged
variants). -/
inductive RequirementSource where
  | registry (specifier : List VersionSpecifier)
  | url (u : String)
  | git (u : String)
  | path (u : String)
deriving DecidableEq

/-- A marker environment: assignments of pep508 environment variables.
Modelled from the spec: `pep508_rs::MarkerEnvironment` is not under `src/`. -/
abbrev MarkerEnv := List (String × String)

/-- Modelled from the spec: a pep508 marker expression, reduced to the shape
the spec relies on — conditions that reference the environment, conditions
that reference an extra name, and conjunction/disjunction. -/
inductive MarkerExpr where
  | envCond (key value : String)
  | extraCond (name : String)
  | and (a b : MarkerExpr)
  | or (a b : MarkerExpr)
deriving DecidableEq

/-- Marker evaluation against a concrete environment and extras. -/
def MarkerExpr.eval (env : MarkerEnv) (extras : List String) : MarkerExpr → Bool
  | MarkerExpr.envCond key value => env.lookup key == some value
  | MarkerExpr.extraCond n => extras.contains n
  | MarkerExpr.and a b => a.eval env extras && b.eval env extras
  | MarkerExpr.or a b => a.eval env extras || b.eval env extras

/-- Modelled from the spec: marker evaluation with no environment supplied
treats every condition that references the environment as true; only
extra-name references are honored. -/
def MarkerExpr.evalNoEnv (extras : List String) : MarkerExpr → Bool
  | MarkerExpr.envCond _ _ => true
  | MarkerExpr.extraCond n => extras.contains n
  | MarkerExpr.and a b => a.evalNoEnv extras && b.evalNoEnv extras
  | MarkerExpr.or a b => a.evalNoEnv extras || b.evalNoEnv extras

/-- Evaluation of an optional marker under an optional environment: a missing
marker is true; a missing environment triggers environment-independent
evaluation. -/
def evaluateOptionalMarkers (markers : Option MarkerEnv) (extras : List String) :
    Option MarkerExpr → Bool
  | none => true
  | some m =>
    match markers with
    | some env => m.eval env extras
    | none => m.evalNoEnv extras

/-- A marker expression that only references the environment (no extras). -/
def onlyEnvRefs : MarkerExpr → Bool
  | MarkerExpr.envCond _ _ => true
  | MarkerExpr.extraCond _ => false
  | MarkerExpr.and a b => onlyEnvRefs a && onlyEnvRefs b
  | MarkerExpr.or a b => onlyEnvRefs a && onlyEnvRefs b

/-- `pypi_types::Requirement`: name, source and optional marker. -/
structure Requirement where
  name : String
  source : RequirementSource
  marker : Option MarkerExpr
deriving DecidableEq

/-- An unnamed (direct URL) requirement; `url` is the verbatim URL. -/
structure UnnamedRequirement where
  url : String
  marker : Option MarkerExpr
deriving DecidableEq

/-- `distribution_types::UnresolvedRequirement`. -/
inductive UnresolvedRequirement where
  | named (r : Requirement)
  | unnamed (r : UnnamedRequirement)
deriving DecidableEq

/-- The marker attached to either kind of requirement. -/
def UnresolvedRequirement.markerOf : UnresolvedRequirement → Option MarkerExpr
  | UnresolvedRequirement.named r => r.marker
  | UnresolvedRequirement.unnamed u => u.marker

/-- `UnresolvedRequirement::evaluate_markers` (in `distribution_types`, not
under `src/`; modelled from the spec's marker-evaluation rule). -/
def UnresolvedRequirement.evaluateMarkers (req : UnresolvedRequirement)
    (markers : Option MarkerEnv) (extras : List String) : Bool :=
  evaluateOptionalMarkers markers extras req.markerOf

/-- Modelled from the spec: the `Display` rendering of a requirement used as
`to_string()` in error payloads; rendered as the name / verbatim URL. -/
def Requirement.toText (r : Requirement) : String := r.name

/-- Modelled from the spec: `to_string()` of an `UnresolvedRequirement`. -/
def UnresolvedRequirement.toText : UnresolvedRequirement → String
  | UnresolvedRequirement.named r => r.toText
  | UnresolvedRequirement.unnamed u => u.url

/-! ## Hash strategy construction (`require` / `verify`) -/

/-- `uv_types::HashCheckingMode` (hash.rs lines 237-241). -/
inductive HashCheckingMode where
  | Require
  | Verify
deriving DecidableEq

/-- `uv_types::HashStrategyError` (hash.rs lines 252-262). -/
inductive HashStrategyError where
  | hash (e : HashError)
  | unpinnedRequirement (req : String) (mode : HashCheckingMode)
  | missingHashes (req : String) (mode : HashCheckingMode)
deriving DecidableEq

/-- `HashStrategy::pin` (hash.rs lines 215-234): a named requirement pins iff
its registry source has exactly one specifier and that specifier's operator
is `==`; URL, git and path sources always pin to a URL identity. -/
def HashStrategy.pin (r : Requirement) : Option PackageId :=
  match r.source with
  | RequirementSource.registry specifier =>
    match specifier with
    | [spec] =>
      if spec.op = Operator.equal then some (PackageId.fromRegistry r.name)
      else none
    | _ => none
  | RequirementSource.url u => some (PackageId.fromUrl u)
  | RequirementSource.git u => some (PackageId.fromUrl u)
  | RequirementSource.path u => some (PackageId.fromUrl u)

/-- The package identity of a requirement in `require` mode (hash.rs lines
132-145): named requirements must pin, direct URLs are always allowed. -/
def requireId : UnresolvedRequirement → Except HashStrategyError PackageId
  | UnresolvedRequirement.named r =>
    match HashStrategy.pin r with
    | some id => Except.ok id
    | none =>
      Except.error (HashStrategyError.unpinnedRequirement r.toText HashCheckingMode.Require)
  | UnresolvedRequirement.unnamed u => Except.ok (PackageId.fromUrl u.url)

/-- The package identity of a requirement in `verify` mode (hash.rs lines
193-206). -/
def verifyId : UnresolvedRequirement → Except HashStrategyError PackageId
  | UnresolvedRequirement.named r =>
    match HashStrategy.pin r with
    | some id => Except.ok id
    | none =>
      Except.error (HashStrategyError.unpinnedRequirement r.toText HashCheckingMode.Verify)
  | UnresolvedRequirement.unnamed u => Except.ok (PackageId.fromUrl u.url)

/-- Parsing of the raw digest strings (hash.rs lines 156-159 and 187-190):
`collect::<Result<Vec<_>, _>>()` stops at the first failure. -/
def parseDigests : List String → Except HashError (List HashDigest)
  | [] => Except.ok []
  | d :: rest =>
    match HashDigest.fromStr d with
    | Except.error e => Except.error e
    | Except.ok h =>
      match parseDigests rest with
      | Except.error e => Except.error e
      | Except.ok hs => Except.ok (h :: hs)

/-- The loop body of `HashStrategy::require` (hash.rs lines 122-162),
threading the map being built. -/
def HashStrategy.requireLoop (markers : Option MarkerEnv) (acc : HashMapL) :
    List (UnresolvedRequirement × List String) → Except HashStrategyError HashMapL
  | [] => Except.ok acc
  | (requirement, digests) :: rest =>
    if requirement.evaluateMarkers markers [] then
      match requireId requirement with
      | Except.error e => Except.error e
      | Except.ok id =>
        if digests = [] then
          Except.error
            (HashStrategyError.missingHashes requirement.toText HashCheckingMode.Require)
        else
          match parseDigests digests with
          | Except.error e => Except.error (HashStrategyError.hash e)
          | Except.ok hds => HashStrategy.requireLoop markers (mapInsert acc id hds) rest
    else HashStrategy.requireLoop markers acc rest

/-- `HashStrategy::require` (hash.rs lines 118-165). -/
def HashStrategy.require (requirements : List (UnresolvedRequirement × List String))
    (markers : Option MarkerEnv) : Except HashStrategyError HashStrategy :=
  match HashStrategy.requireLoop markers [] requirements with
  | Except.error e => Except.error e
  | Except.ok hashes => Except.ok (HashStrategy.Require hashes)

/-- The loop body of `HashStrategy::verify` (hash.rs lines 172-209): hashes
are optional, and digests are parsed before the pinning check. -/
def HashStrategy.verifyLoop (markers : Option MarkerEnv) (acc : HashMapL) :
    List (UnresolvedRequirement × List String) → Except HashStrategyError HashMapL
  | [] => Except.ok acc
  | (requirement, digests) :: rest =>
    if requirement.evaluateMarkers markers [] then
      if digests = [] then HashStrategy.verifyLoop markers acc rest
      else
        match parseDigests digests with
        | Except.error e => Except.error (HashStrategyError.hash e)
        | Except.ok hds =>
          match verifyId requirement with
          | Except.error e => Except.error e
          | Except.ok id => HashStrategy.verifyLoop markers (mapInsert acc id hds) rest
    else HashStrategy.verifyLoop markers acc rest

/-- `HashStrategy::verify` (hash.rs lines 168-212). -/
def HashStrategy.verify (requirements : List (UnresolvedRequirement × List String))
    (markers : Option MarkerEnv) : Except HashStrategyError HashStrategy :=
  match HashStrategy.verifyLoop markers [] requirements with
  | Except.error e => Except.error e
  | Except.ok hashes => Except.ok (HashStrategy.Verify hashes)

/-! ## Claim C2 -/

/-- A requirement whose identity computation succeeds in `require` mode is a
direct URL or a pinned named requirement. -/
theorem requireId_ok_shape (req : UnresolvedRequirement) (id : PackageId)
    (h : requireId req = Except.ok id) :
    (∃ u, req = UnresolvedRequirement.unnamed u) ∨
      (∃ r, req = UnresolvedRequirement.named r ∧ (HashStrategy.pin r).isSome = true) := by
  cases req with
  | named r =>
    refine Or.inr ⟨r, rfl, ?_⟩
    cases hp : HashStrategy.pin r with
    | none => rw [requireId, hp] at h; exact absurd h (by simp)
    | some i => simp [hp]
  | unnamed u => exact Or.inl ⟨u, rfl⟩

/-- Soundness of the `require` loop: an `Ok` result means every non-skipped
requirement had a computable identity and a non-empty digest list. -/
theorem requireLoop_ok_sound (markers : Option MarkerEnv) :
    ∀ (reqs : List (UnresolvedRequirement × List String)) (acc m : HashMapL),
      HashStrategy.requireLoop markers acc reqs = Except.ok m →
      ∀ req ds, (req, ds) ∈ reqs → req.evaluateMarkers markers [] = true →
        ds ≠ [] ∧ ∃ id, requireId req = Except.ok id := by
  intro reqs
  induction reqs with
  | nil => intro acc m h req ds hmem; simp at hmem
  | cons p rest ih =>
    obtain ⟨q, qds⟩ := p
    intro acc m h req ds hmem heval
    rw [HashStrategy.requireLoop] at h
    by_cases hq : q.evaluateMarkers markers [] = true
    · rw [if_pos hq] at h
      split at h
      · exact absurd h (by simp)
      · rename_i id hid
        by_cases hqe : qds = []
        · rw [if_pos hqe] at h; exact absurd h (by simp)
        · rw [if_neg hqe] at h
          split at h
          · exact absurd h (by simp)
          · rcases List.mem_cons.mp hmem with heq | hmem'
            · injection heq with hr hd
              subst hr; subst hd
              exact ⟨hqe, id, hid⟩
            · exact ih _ _ h req ds hmem' heval
    · rw [if_neg hq] at h
      rcases List.mem_cons.mp hmem with heq | hmem'
      · injection heq with hr hd
        subst hr
        exact absurd heval hq
      · exact ih _ _ h req ds hmem' heval

/-- A marker expression that only references the environment evaluates to
true under environment-independent evaluation. -/
theorem evalNoEnv_onlyEnvRefs (extras : List String) (m : MarkerExpr)
    (hm : onlyEnvRefs m = true) : m.evalNoEnv extras = true := by
  induction m with
  | envCond k v => rfl
  | extraCond n => simp [onlyEnvRefs] at hm
  | and a b iha ihb =>
    rw [onlyEnvRefs, Bool.and_eq_true] at hm
    rw [MarkerExpr.evalNoEnv, iha hm.1, ihb hm.2]
    rfl
  | or a b iha ihb =>
    rw [onlyEnvRefs, Bool.and_eq_true] at hm
    rw [MarkerExpr.evalNoEnv, iha hm.1, ihb hm.2]
    rfl

/-- C2: `HashStrategy.require` returns `Ok` only if every requirement whose
marker evaluates to true is a direct URL or a pinned named requirement, with
at least one digest; a non-skipped named requirement that does not pin fails
with `unpinnedRequirement`; a non-skipped requirement that identifies but has
an empty digest list fails with `missingHashes`; requirements whose marker
evaluates to false are skipped; and with no environment supplied, marker
expressions referencing only the environment evaluate to true. -/
theorem hash_strategy_require_spec :
    (∀ reqs markers s, HashStrategy.require reqs markers = Except.ok s →
      ∀ req ds, (req, ds) ∈ reqs → req.evaluateMarkers markers [] = true →
        ds ≠ [] ∧ ((∃ u, req = UnresolvedRequirement.unnamed u) ∨
          (∃ r, req = UnresolvedRequirement.named r ∧
            (HashStrategy.pin r).isSome = true))) ∧
    (∀ markers req ds rest, req.evaluateMarkers markers [] = false →
      HashStrategy.require ((req, ds) :: rest) markers =
        HashStrategy.require rest markers) ∧
    (∀ markers r ds rest,
      (UnresolvedRequirement.named r).evaluateMarkers markers [] = true →
      HashStrategy.pin r = none →
      HashStrategy.require ((UnresolvedRequirement.named r, ds) :: rest) markers =
        Except.error
          (HashStrategyError.unpinnedRequirement r.toText HashCheckingMode.Require)) ∧
    (∀ markers req rest id, req.evaluateMarkers markers [] = true →
      requireId req = Except.ok id →
      HashStrategy.require ((req, []) :: rest) markers =
        Except.error
          (HashStrategyError.missingHashes req.toText HashCheckingMode.Require)) ∧
    (∀ extras m, onlyEnvRefs m = true →
      evaluateOptionalMarkers none extras (some m) = true) := by
  refine ⟨?_, ?_, ?_, ?_, ?_⟩
  · intro reqs markers s h req ds hmem heval
    rw [HashStrategy.require] at h
    cases hl : HashStrategy.requireLoop markers [] reqs with
    | error e => rw [hl] at h; exact absurd h (by simp)
    | ok m =>
      obtain ⟨hne, id, hid⟩ := requireLoop_ok_sound markers reqs [] m hl req ds hmem heval
      exact ⟨hne, requireId_ok_shape req id hid⟩
  · intro markers req ds rest h
    rw [HashStrategy.require, HashStrategy.require, HashStrategy.requireLoop, h]
    simp
  · intro markers r ds rest heval hpin
    rw [HashStrategy.require, HashStrategy.requireLoop, if_pos heval, requireId, hpin]
  · intro markers req rest id heval hid
    rw [HashStrategy.require, HashStrategy.requireLoop, if_pos heval, hid]
    rfl
  · intro extras m hm
    rw [evaluateOptionalMarkers, evalNoEnv_onlyEnvRefs extras m hm]

/-- A valid 64-character lowercase hex string. -/
def sampleHexA : String := ⟨List.replicate 64 'a'⟩

/-- A valid sha256 digest string. -/
def sampleDigestA : String := "sha256:" ++ sampleHexA

/-- A pinned registry requirement (`albatross ==1.0`). -/
def reqPinned : Requirement :=
  ⟨"albatross", RequirementSource.registry [⟨Operator.equal, "1.0"⟩], none⟩

/-- An unpinned registry requirement (`walrus >=1.0`). -/
def reqUnpinned : Requirement :=
  ⟨"walrus", RequirementSource.registry [⟨Operator.greaterThanEqual, "1.0"⟩], none⟩

/-- Closed witness for C2 at concrete requirement lists. -/
theorem hash_strategy_require_spec_witness :
    HashStrategy.require [(UnresolvedRequirement.named reqUnpinned, [sampleDigestA])] none =
      Except.error
        (HashStrategyError.unpinnedRequirement "walrus" HashCheckingMode.Require) ∧
    HashStrategy.require [(UnresolvedRequirement.named reqPinned, [])] none =
      Except.error
        (HashStrategyError.missingHashes "albatross" HashCheckingMode.Require) ∧
    HashStrategy.require
      [(UnresolvedRequirement.named
        ⟨"skipped", RequirementSource.registry [], some (MarkerExpr.extraCond "x")⟩,
        [])] none = HashStrategy.require [] none ∧
    evaluateOptionalMarkers none [] (some (MarkerExpr.envCond "os_name" "posix")) = true ∧
    (([sampleDigestA] : List String) ≠ [] ∧
      ((∃ u, UnresolvedRequirement.named reqPinned = UnresolvedRequirement.unnamed u) ∨
        (∃ r, UnresolvedRequirement.named reqPinned = UnresolvedRequirement.named r ∧
          (HashStrategy.pin r).isSome = true))) := by
  obtain ⟨h1, h2, h3, h4, h5⟩ := hash_strategy_require_spec
  refine ⟨h3 none reqUnpinned [sampleDigestA] [] rfl (by decide),
    h4 none (UnresolvedRequirement.named reqPinned) []
      (PackageId.registry "albatross") rfl (by decide),
    h2 none _ [] [] (by decide),
    h5 [] _ rfl,
    h1 [(UnresolvedRequirement.named reqPinned, [sampleDigestA])] none
      (HashStrategy.Require [(PackageId.registry "albatross",
        [⟨"sha256", sampleHexA⟩])])
      (by decide) (UnresolvedRequirement.named reqPinned) [sampleDigestA]
      (by simp) rfl⟩

/-! ## Claim C3 -/

/-- Spec-side description of the `require` map: the raw digest strings of the
last entry, in iteration order, that is not marker-skipped and whose identity
resolves to `pid` ("we use the last entry for each package"). -/
def lastRawDigests (markers : Option MarkerEnv) (pid : PackageId) :
    List (UnresolvedRequirement × List String) → Option (List String)
  | [] => none
  | (req, ds) :: rest =>
    match lastRawDigests markers pid rest with
    | some raw => some raw
    | none =>
      if req.evaluateMarkers markers [] = true ∧ requireId req = Except.ok pid then
        some ds
      else none

/-- Spec-side description of the `verify` map: as `lastRawDigests` but
entries with an empty digest list are also skipped. -/
def lastRawVerify (markers : Option MarkerEnv) (pid : PackageId) :
    List (UnresolvedRequirement × List String) → Option (List String)
  | [] => none
  | (req, ds) :: rest =>
    match lastRawVerify markers pid rest with
    | some raw => some raw
    | none =>
      if req.evaluateMarkers markers [] = true ∧ ds ≠ [] ∧ verifyId req = Except.ok pid then
        some ds
      else none

/-- Parsing a non-empty digest list yields a non-empty result. -/
theorem parseDigests_ne_nil (l : List String) (h : List HashDigest)
    (hl : l ≠ []) (hp : parseDigests l = Except.ok h) : h ≠ [] := by
  cases l with
  | nil => exact absurd rfl hl
  | cons d rest =>
    rw [parseDigests] at hp
    split at hp
    · exact absurd hp (by simp)
    · split at hp
      · exact absurd hp (by simp)
      · rw [← Except.ok.inj hp]
        simp

/-- The `require` loop realizes the last-entry-wins map description. -/
theorem requireLoop_lookup (markers : Option MarkerEnv) :
    ∀ (reqs : List (UnresolvedRequirement × List String)) (acc m : HashMapL),
      HashStrategy.requireLoop markers acc reqs = Except.ok m → ∀ pid,
      (∀ raw, lastRawDigests markers pid reqs = some raw →
        ∃ hds, parseDigests raw = Except.ok hds ∧ mapLookup m pid = some hds) ∧
      (lastRawDigests markers pid reqs = none →
        mapLookup m pid = mapLookup acc pid) := by
  intro reqs
  induction reqs with
  | nil =>
    intro acc m h pid
    rw [HashStrategy.requireLoop] at h
    rw [← Except.ok.inj h]
    exact ⟨fun raw hraw => absurd hraw (by rw [lastRawDigests]; simp),
      fun _ => rfl⟩
  | cons p rest ih =>
    obtain ⟨q, qds⟩ := p
    intro acc m h pid
    rw [HashStrategy.requireLoop] at h
    by_cases hq : q.evaluateMarkers markers [] = true
    · rw [if_pos hq] at h
      split at h
      · exact absurd h (by simp)
      · rename_i id hid
        by_cases hqe : qds = []
        · rw [if_pos hqe] at h; exact absurd h (by simp)
        · rw [if_neg hqe] at h
          split at h
          · exact absurd h (by simp)
          · rename_i hds hp
            have IH := ih (mapInsert acc id hds) m h pid
            constructor
            · intro raw hraw
              cases hrest : lastRawDigests markers pid rest with
              | some raw2 =>
                have hr2 : raw2 = raw := by
                  rw [lastRawDigests, hrest] at hraw
                  exact Option.some.inj hraw
                exact hr2 ▸ IH.1 raw2 hrest
              | none =>
                rw [lastRawDigests, hrest] at hraw
                by_cases hc : q.evaluateMarkers markers [] = true ∧
                    requireId q = Except.ok pid
                · rw [if_pos hc] at hraw
                  have hqr : qds = raw := Option.some.inj hraw
                  have hidpid : id = pid := by
                    have := hc.2
                    rw [hid] at this
                    exact Except.ok.inj this
                  refine ⟨hds, hqr ▸ hp, ?_⟩
                  rw [IH.2 hrest]
                  subst hidpid
                  simp [mapInsert, mapLookup]
                · rw [if_neg hc] at hraw
                  exact absurd hraw (by simp)
            · intro hnone
              cases hrest : lastRawDigests markers pid rest with
              | some raw2 =>
                rw [lastRawDigests, hrest] at hnone
                exact absurd hnone (by simp)
              | none =>
                rw [lastRawDigests, hrest] at hnone
                by_cases hc : q.evaluateMarkers markers [] = true ∧
                    requireId q = Except.ok pid
                · rw [if_pos hc] at hnone
                  exact absurd hnone (by simp)
                · have hidne : id ≠ pid := by
                    intro hcontra
                    exact hc ⟨hq, by rw [hid, hcontra]⟩
                  rw [IH.2 hrest]
                  simp [mapInsert, mapLookup, hidne]
    · rw [if_neg hq] at h
      have IH := ih acc m h pid
      have hsame : lastRawDigests markers pid ((q, qds) :: rest) =
          lastRawDigests markers pid rest := by
        cases hrest : lastRawDigests markers pid rest with
        | some raw2 => rw [lastRawDigests, hrest]
        | none =>
          rw [lastRawDigests, hrest]
          exact if_neg (fun hc => hq hc.1)
      exact ⟨fun raw hraw => IH.1 raw (hsame ▸ hraw),
        fun hnone => IH.2 (hsame ▸ hnone)⟩

/-- Every binding the `require` loop adds has a non-empty digest list. -/
theorem requireLoop_nonempty (markers : Option MarkerEnv) :
    ∀ (reqs : List (UnresolvedRequirement × List String)) (acc m : HashMapL),
      HashStrategy.requireLoop markers acc reqs = Except.ok m →
      (∀ pid ds, mapLookup acc pid = some ds → ds ≠ []) →
      ∀ pid ds, mapLookup m pid = some ds → ds ≠ [] := by
  intro reqs
  induction reqs with
  | nil =>
    intro acc m h hacc
    rw [HashStrategy.requireLoop] at h
    rw [← Except.ok.inj h]
    exact hacc
  | cons p rest ih =>
    obtain ⟨q, qds⟩ := p
    intro acc m h hacc
    rw [HashStrategy.requireLoop] at h
    by_cases hq : q.evaluateMarkers markers [] = true
    · rw [if_pos hq] at h
      split at h
      · exact absurd h (by simp)
      · rename_i id hid
        by_cases hqe : qds = []
        · rw [if_pos hqe] at h; exact absurd h (by simp)
        · rw [if_neg hqe] at h
          split at h
          · exact absurd h (by simp)
          · rename_i hds hp
            refine ih _ _ h ?_
            intro pid ds hl
            rw [mapInsert, mapLookup] at hl
            by_cases hip : id = pid
            · rw [if_pos hip] at hl
              rw [← Option.some.inj hl]
              exact parseDigests_ne_nil qds hds hqe hp
            · rw [if_neg hip] at hl
              exact hacc pid ds hl
    · rw [if_neg hq] at h
      exact ih _ _ h hacc

/-- The `verify` loop realizes the last-entry-wins map description. -/
theorem verifyLoop_lookup (markers : Option MarkerEnv) :
    ∀ (reqs : List (UnresolvedRequirement × List String)) (acc m : HashMapL),
      HashStrategy.verifyLoop markers acc reqs = Except.ok m → ∀ pid,
      (∀ raw, lastRawVerify markers pid reqs = some raw →
        ∃ hds, parseDigests raw = Except.ok hds ∧ mapLookup m pid = some hds) ∧
      (lastRawVerify markers pid reqs = none →
        mapLookup m pid = mapLookup acc pid) := by
  intro reqs
  induction reqs with
  | nil =>
    intro acc m h pid
    rw [HashStrategy.verifyLoop] at h
    rw [← Except.ok.inj h]
    exact ⟨fun raw hraw => absurd hraw (by rw [lastRawVerify]; simp),
      fun _ => rfl⟩
  | cons p rest ih =>
    obtain ⟨q, qds⟩ := p
    intro acc m h pid
    rw [HashStrategy.verifyLoop] at h
    by_cases hq : q.evaluateMarkers markers [] = true
    · rw [if_pos hq] at h
      by_cases hqe : qds = []
      · rw [if_pos hqe] at h
        have IH := ih acc m h pid
        have hsame : lastRawVerify markers pid ((q, qds) :: rest) =
            lastRawVerify markers pid rest := by
          cases hrest : lastRawVerify markers pid rest with
          | some raw2 => rw [lastRawVerify, hrest]
          | none =>
            rw [lastRawVerify, hrest]
            exact if_neg (fun hc => hc.2.1 hqe)
        exact ⟨fun raw hraw => IH.1 raw (hsame ▸ hraw),
          fun hnone => IH.2 (hsame ▸ hnone)⟩
      · rw [if_neg hqe] at h
        split at h
        · exact absurd h (by simp)
        · rename_i hds hp
          split at h
          · exact absurd h (by simp)
          · rename_i id hid
            have IH := ih (mapInsert acc id hds) m h pid
            constructor
            · intro raw hraw
              cases hrest : lastRawVerify markers pid rest with
              | some raw2 =>
                have hr2 : raw2 = raw := by
                  rw [lastRawVerify, hrest] at hraw
                  exact Option.some.inj hraw
                exact hr2 ▸ IH.1 raw2 hrest
              | none =>
                rw [lastRawVerify, hrest] at hraw
                by_cases hc : q.evaluateMarkers markers [] = true ∧ qds ≠ [] ∧
                    verifyId q = Except.ok pid
                · rw [if_pos hc] at hraw
                  have hqr : qds = raw := Option.some.inj hraw
                  have hidpid : id = pid := by
                    have := hc.2.2
                    rw [hid] at this
                    exact Except.ok.inj this
                  refine ⟨hds, hqr ▸ hp, ?_⟩
                  rw [IH.2 hrest]
                  subst hidpid
                  simp [mapInsert, mapLookup]
                · rw [if_neg hc] at hraw
                  exact absurd hraw (by simp)
            · intro hnone
              cases hrest : lastRawVerify markers pid rest with
              | some raw2 =>
                rw [lastRawVerify, hrest] at hnone
                exact absurd hnone (by simp)
              | none =>
                rw [lastRawVerify, hrest] at hnone
                by_cases hc : q.evaluateMarkers markers [] = true ∧ qds ≠ [] ∧
                    verifyId q = Except.ok pid
                · rw [if_pos hc] at hnone
                  exact absurd hnone (by simp)
                · have hidne : id ≠ pid := by
                    intro hcontra
                    exact hc ⟨hq, hqe, by rw [hid, hcontra]⟩
                  rw [IH.2 hrest]
                  simp [mapInsert, mapLookup, hidne]
    · rw [if_neg hq] at h
      have IH := ih acc m h pid
      have hsame : lastRawVerify markers pid ((q, qds) :: rest) =
          lastRawVerify markers pid rest := by
        cases hrest : lastRawVerify markers pid rest with
        | some raw2 => rw [lastRawVerify, hrest]
        | none =>
          rw [lastRawVerify, hrest]
          exact if_neg (fun hc => hq hc.1)
      exact ⟨fun raw hraw => IH.1 raw (hsame ▸ hraw),
        fun hnone => IH.2 (hsame ▸ hnone)⟩

/-- C3: when `HashStrategy.require` returns `Ok(Require(map))`, every key of
the map carries a non-empty digest list, and each key's digests are those of
the last non-skipped requirement (in iteration order) yielding that identity;
the same last-entry-wins rule holds for the map built by
`HashStrategy.verify`. -/
theorem require_verify_map_construction :
    (∀ reqs markers m,
      HashStrategy.require reqs markers = Except.ok (HashStrategy.Require m) →
      (∀ pid ds, mapLookup m pid = some ds → ds ≠ []) ∧
      (∀ pid raw, lastRawDigests markers pid reqs = some raw →
        ∃ hds, parseDigests raw = Except.ok hds ∧ mapLookup m pid = some hds) ∧
      (∀ pid, lastRawDigests markers pid reqs = none → mapLookup m pid = none)) ∧
    (∀ reqs markers m,
      HashStrategy.verify reqs markers = Except.ok (HashStrategy.Verify m) →
      (∀ pid raw, lastRawVerify markers pid reqs = some raw →
        ∃ hds, parseDigests raw = Except.ok hds ∧ mapLookup m pid = some hds) ∧
      (∀ pid, lastRawVerify markers pid reqs = none → mapLookup m pid = none)) := by
  constructor
  · intro reqs markers m h
    rw [HashStrategy.require] at h
    cases hl : HashStrategy.requireLoop markers [] reqs with
    | error e => rw [hl] at h; exact absurd h (by simp)
    | ok hashes =>
      rw [hl] at h
      have hm : hashes = m := HashStrategy.Require.inj (Except.ok.inj h)
      subst hm
      refine ⟨requireLoop_nonempty markers reqs [] hashes hl (by intro pid ds hds; simp [mapLookup] at hds), ?_, ?_⟩
      · intro pid raw hraw
        exact (requireLoop_lookup markers reqs [] hashes hl pid).1 raw hraw
      · intro pid hnone
        rw [(requireLoop_lookup markers reqs [] hashes hl pid).2 hnone]
        rfl
  · intro reqs markers m h
    rw [HashStrategy.verify] at h
    cases hl : HashStrategy.verifyLoop markers [] reqs with
    | error e => rw [hl] at h; exact absurd h (by simp)
    | ok hashes =>
      rw [hl] at h
      have hm : hashes = m := HashStrategy.Verify.inj (Except.ok.inj h)
      subst hm
      refine ⟨?_, ?_⟩
      · intro pid raw hraw
        exact (verifyLoop_lookup markers reqs [] hashes hl pid).1 raw hraw
      · intro pid hnone
        rw [(verifyLoop_lookup markers reqs [] hashes hl pid).2 hnone]
        rfl

/-- A second valid 64-character lowercase hex string. -/
def sampleHexB : String := ⟨List.replicate 64 'b'⟩

/-- A second valid sha256 digest string. -/
def sampleDigestB : String := "sha256:" ++ sampleHexB

/-- Two entries for the same pinned package, the last carrying digest B. -/
def reqsDuplicated : List (UnresolvedRequirement × List String) :=
  [(UnresolvedRequirement.named reqPinned, [sampleDigestA]),
   (UnresolvedRequirement.named reqPinned, [sampleDigestB])]

/-- The map `require` builds from `reqsDuplicated`. -/
def mapDuplicated : HashMapL :=
  [(PackageId.registry "albatross", [⟨"sha256", sampleHexB⟩]),
   (PackageId.registry "albatross", [⟨"sha256", sampleHexA⟩])]

/-- Closed witness for C3: on a duplicated package the constructed map holds
the digests of the last entry, and they are non-empty. -/
theorem require_verify_map_construction_witness :
    HashStrategy.require reqsDuplicated none =
      Except.ok (HashStrategy.Require mapDuplicated) ∧
    lastRawDigests none (PackageId.registry "albatross") reqsDuplicated =
      some [sampleDigestB] ∧
    mapLookup mapDuplicated (PackageId.registry "albatross") =
      some [⟨"sha256", sampleHexB⟩] ∧
    ([⟨"sha256", sampleHexB⟩] : List HashDigest) ≠ [] := by
  obtain ⟨hreq, hver⟩ := require_verify_map_construction
  have hok : HashStrategy.require reqsDuplicated none =
      Except.ok (HashStrategy.Require mapDuplicated) := by decide
  obtain ⟨hne, hsome, -⟩ := hreq reqsDuplicated none mapDuplicated hok
  have hlast : lastRawDigests none (PackageId.registry "albatross") reqsDuplicated =
      some [sampleDigestB] := by decide
  obtain ⟨hds, hp, hl⟩ := hsome (PackageId.registry "albatross") [sampleDigestB] hlast
  have hparse : parseDigests [sampleDigestB] =
      Except.ok [⟨"sha256", sampleHexB⟩] := by decide
  rw [hparse] at hp
  have hdseq : hds = [⟨"sha256", sampleHexB⟩] := (Except.ok.inj hp).symm
  subst hdseq
  exact ⟨hok, hlast, hl, hne _ _ hl⟩

/-! ## Claim C4 -/

/-- C4: `HashStrategy.verify` skips without error every requirement whose
digest list is empty or whose marker evaluates to false; a named requirement
pins iff it has exactly one version specifier and that specifier uses the
equality operator (otherwise, when its digests parse, `verify` fails with
`unpinnedRequirement`); and a URL, git, or local-path requirement always
yields a URL-based package identity. -/
theorem hash_strategy_verify_spec :
    (∀ markers req ds rest, req.evaluateMarkers markers [] = false →
      HashStrategy.verify ((req, ds) :: rest) markers =
        HashStrategy.verify rest markers) ∧
    (∀ markers req rest,
      HashStrategy.verify ((req, []) :: rest) markers =
        HashStrategy.verify rest markers) ∧
    (∀ (r : Requirement) (spec : VersionSpecifier),
      r.source = RequirementSource.registry [spec] → spec.op = Operator.equal →
      HashStrategy.pin r = some (PackageId.fromRegistry r.name)) ∧
    (∀ (r : Requirement) (spec : VersionSpecifier),
      r.source = RequirementSource.registry [spec] → spec.op ≠ Operator.equal →
      HashStrategy.pin r = none) ∧
    (∀ (r : Requirement) specs, r.source = RequirementSource.registry specs →
      specs.length ≠ 1 → HashStrategy.pin r = none) ∧
    (∀ (r : Requirement) u,
      r.source = RequirementSource.url u ∨ r.source = RequirementSource.git u ∨
        r.source = RequirementSource.path u →
      HashStrategy.pin r = some (PackageId.fromUrl u)) ∧
    (∀ markers r ds rest hds,
      (UnresolvedRequirement.named r).evaluateMarkers markers [] = true →
      ds ≠ [] → parseDigests ds = Except.ok hds → HashStrategy.pin r = none →
      HashStrategy.verify ((UnresolvedRequirement.named r, ds) :: rest) markers =
        Except.error
          (HashStrategyError.unpinnedRequirement r.toText HashCheckingMode.Verify)) ∧
    (∀ u, verifyId (UnresolvedRequirement.unnamed u) =
      Except.ok (PackageId.fromUrl u.url)) := by
  refine ⟨?_, ?_, ?_, ?_, ?_, ?_, ?_, fun u => rfl⟩
  · intro markers req ds rest h
    simp [HashStrategy.verify, HashStrategy.verifyLoop, h]
  · intro markers req rest
    by_cases heval : req.evaluateMarkers markers [] = true
    · simp [HashStrategy.verify, HashStrategy.verifyLoop, heval]
    · simp [HashStrategy.verify, HashStrategy.verifyLoop, heval]
  · intro r spec h1 h2
    rw [HashStrategy.pin, h1]
    simp [h2]
  · intro r spec h1 h2
    rw [HashStrategy.pin, h1]
    simp [h2]
  · intro r specs h1 h2
    rw [HashStrategy.pin, h1]
    cases specs with
    | nil => rfl
    | cons a t =>
      cases t with
      | nil => exact absurd rfl h2
      | cons b t2 => rfl
  · intro r u h
    rcases h with h | h | h <;> rw [HashStrategy.pin, h]
  · intro markers r ds rest hds heval hdse hp hpin
    rw [HashStrategy.verify, HashStrategy.verifyLoop, if_pos heval, if_neg hdse, hp,
      verifyId, hpin]

/-- A requirement skipped by its (false) marker expression. -/
def reqMarkerFalse : Requirement :=
  ⟨"markered", RequirementSource.registry [⟨Operator.equal, "1.0"⟩],
    some (MarkerExpr.extraCond "feature")⟩

/-- Closed witness for C4 at concrete requirements. -/
theorem hash_strategy_verify_spec_witness :
    HashStrategy.verify [(UnresolvedRequirement.named reqMarkerFalse, [sampleDigestA])]
      none = HashStrategy.verify [] none ∧
    HashStrategy.verify [(UnresolvedRequirement.named reqPinned, [])] none =
      HashStrategy.verify [] none ∧
    HashStrategy.pin reqPinned = some (PackageId.registry "albatross") ∧
    HashStrategy.pin reqUnpinned = none ∧
    HashStrategy.pin ⟨"nospecs", RequirementSource.registry [], none⟩ = none ∧
    HashStrategy.pin ⟨"gitreq", RequirementSource.git "git+https://g/r", none⟩ =
      some (PackageId.url "git+https://g/r") ∧
    HashStrategy.verify [(UnresolvedRequirement.named reqUnpinned, [sampleDigestA])]
      none =
      Except.error
        (HashStrategyError.unpinnedRequirement "walrus" HashCheckingMode.Verify) ∧
    verifyId (UnresolvedRequirement.unnamed ⟨"https://a/b.whl", none⟩) =
      Except.ok (PackageId.url "https://a/b.whl") := by
  obtain ⟨h1, h2, h3, h4, h5, h6, h7, h8⟩ := hash_strategy_verify_spec
  exact ⟨h1 none (UnresolvedRequirement.named reqMarkerFalse) [sampleDigestA] []
      (by decide),
    h2 none (UnresolvedRequirement.named reqPinned) [],
    h3 reqPinned ⟨Operator.equal, "1.0"⟩ rfl rfl,
    h4 reqUnpinned ⟨Operator.greaterThanEqual, "1.0"⟩ rfl (by decide),
    h5 ⟨"nospecs", RequirementSource.registry [], none⟩ [] rfl (by decide),
    h6 ⟨"gitreq", RequirementSource.git "git+https://g/r", none⟩ "git+https://g/r"
      (Or.inr (Or.inl rfl)),
    h7 none reqUnpinned [sampleDigestA] [] [⟨"sha256", sampleHexA⟩] rfl
      (by decide) (by decide) (by decide),
    h8 ⟨"https://a/b.whl", none⟩⟩

/-! ## The build daemon wire protocol (daemon.rs)

Incoming lines are parsed by `DaemonResponse::try_from_str`. A Rust panic
(`Option::unwrap` on a missing token) is modelled as `Option.none` around the
parse result. -/

/-- `HookErrorKind` (daemon.rs lines 100-111). -/
inductive HookErrorKind where
  | MissingBackendModule
  | MissingBackendAttribute
  | MalformedBackendName
  | BackendImportError
  | InvalidHookName
  | InvalidAction
  | UnsupportedHook
  | MalformedHookArgument
  | HookRuntimeError
deriving DecidableEq

/-- `DaemonResponse` (daemon.rs lines 48-60); `PathBuf` payloads are modelled
as strings. -/
inductive DaemonResponse where
  | Debug (s : String)
  | Error (kind : HookErrorKind) (message : String)
  | Traceback (text : String)
  | Ok (result : String)
  | Stderr (path : String)
  | Stdout (path : String)
  | Expect (s : String)
  | Ready
  | Fatal (kind message : String)
  | Shutdown
deriving DecidableEq

/-- `DaemonError` (daemon.rs lines 19-45); the `IO` variant carries its
message as a string. -/
inductive DaemonError where
  | ioError (s : String)
  | unknownResponse (line : String)
  | unexpectedResponse (response : DaemonResponse)
  | emptyResponse
  | unknownErrorKind (name : String)
  | notReady
  | closed
  | crashed (kind message traceback : String)
  | hookError (message traceback : String)
  | invalidResult (payload reason : String)
deriving DecidableEq

/-- `HookErrorKind::try_from_str` (daemon.rs lines 114-127). -/
def HookErrorKind.tryFromStr (name : String) : Except DaemonError HookErrorKind :=
  if name = "MissingBackendModule" then Except.ok HookErrorKind.MissingBackendModule
  else if name = "MissingBackendAttribute" then Except.ok HookErrorKind.MissingBackendAttribute
  else if name = "MalformedBackendName" then Except.ok HookErrorKind.MalformedBackendName
  else if name = "BackendImportError" then Except.ok HookErrorKind.BackendImportError
  else if name = "InvalidHookName" then Except.ok HookErrorKind.InvalidHookName
  else if name = "InvalidAction" then Except.ok HookErrorKind.InvalidAction
  else if name = "UnsupportedHook" then Except.ok HookErrorKind.UnsupportedHook
  else if name = "MalformedHookArgument" then Except.ok HookErrorKind.MalformedHookArgument
  else if name = "HookRuntimeError" then Except.ok HookErrorKind.HookRuntimeError
  else Except.error (DaemonError.unknownErrorKind name)

/-- Split at the first ASCII space: the part before it, and the remainder
after it when a space exists. -/
def splitFirstSpace : List Char → List Char × Option (List Char)
  | [] => ([], none)
  | c :: rest =>
    if c = ' ' then ([], some rest)
    else
      let p := splitFirstSpace rest
      (c :: p.1, p.2)

/-- Rust's `line.splitn(3, ' ')`: at most three parts, the last keeping any
further spaces; always at least one (possibly empty) part. -/
def splitn3Space (s : List Char) : List (List Char) :=
  match splitFirstSpace s with
  | (p1, none) => [p1]
  | (p1, some r1) =>
    match splitFirstSpace r1 with
    | (p2, none) => [p1, p2]
    | (p2, some r2) => [p1, p2, r2]

/-- `parts.collect::<Vec<&str>>().join(" ")` on the not-yet-consumed parts. -/
def joinSpace (parts : List (List Char)) : String :=
  String.intercalate " " (parts.map fun p => (⟨p⟩ : String))

/-- `str::replace("\\n", "\n")`: one left-to-right pass decoding each literal
backslash-n escape into a newline (daemon.rs line 75). -/
def decodeEscapes : List Char → List Char
  | [] => []
  | [c] => [c]
  | c1 :: c2 :: rest =>
    if c1 = '\\' ∧ c2 = 'n' then '\n' :: decodeEscapes rest
    else c1 :: decodeEscapes (c2 :: rest)

/-- `str::replace("\n\n", "\n")`: one left-to-right pass collapsing each pair
of consecutive newlines into one (daemon.rs line 76). -/
def collapseNewlines : List Char → List Char
  | [] => []
  | [c] => [c]
  | c1 :: c2 :: rest =>
    if c1 = '\n' ∧ c2 = '\n' then '\n' :: collapseNewlines rest
    else c1 :: collapseNewlines (c2 :: rest)

/-- The TRACEBACK payload decoding (daemon.rs lines 71-77): decode escapes,
then collapse doubled newlines. -/
def decodeTraceback (s : String) : String :=
  ⟨collapseNewlines (decodeEscapes s.data)⟩

/-- `DaemonResponse::try_from_str` (daemon.rs lines 63-96). `Option.none`
models a panic on `unwrap` of a missing token. -/
def DaemonResponse.tryFromStr (line : String) :
    Option (Except DaemonError DaemonResponse) :=
  match splitn3Space line.data with
  | [] => some (Except.error DaemonError.emptyResponse)
  | kind :: rest =>
    let kw : String := ⟨kind⟩
    if kw = "DEBUG" then some (Except.ok (DaemonResponse.Debug (joinSpace rest)))
    else if kw = "EXPECT" then some (Except.ok (DaemonResponse.Expect (joinSpace rest)))
    else if kw = "OK" then some (Except.ok (DaemonResponse.Ok (joinSpace rest)))
    else if kw = "TRACEBACK" then
      some (Except.ok (DaemonResponse.Traceback (decodeTraceback (joinSpace rest))))
    else if kw = "ERROR" then
      match rest with
      | [] => none
      | k :: rest2 =>
        match HookErrorKind.tryFromStr ⟨k⟩ with
        | Except.error e => some (Except.error e)
        | Except.ok hk => some (Except.ok (DaemonResponse.Error hk (joinSpace rest2)))
    else if kw = "STDOUT" then
      match rest with
      | [] => none
      | p :: _ => some (Except.ok (DaemonResponse.Stdout ⟨p⟩))
    else if kw = "STDERR" then
      match rest with
      | [] => none
      | p :: _ => some (Except.ok (DaemonResponse.Stderr ⟨p⟩))
    else if kw = "READY" then some (Except.ok DaemonResponse.Ready)
    else if kw = "FATAL" then
      match rest with
      | k :: m :: _ => some (Except.ok (DaemonResponse.Fatal ⟨k⟩ ⟨m⟩))
      | _ => none
    else if kw = "SHUTDOWN" then some (Except.ok DaemonResponse.Shutdown)
    else some (Except.error (DaemonError.unknownResponse line))

/-! ## Claim C8 -/

/-- C8: an input line whose first space-separated keyword is unknown yields
`unknownResponse` carrying the whole line — including the empty line, whose
keyword is the empty string: `splitn` always yields at least one (possibly
empty) part, so the `emptyResponse` branch is unreachable and the empty line
does NOT produce `emptyResponse` as the spec claims. -/
theorem daemon_response_unknown_and_empty :
    DaemonResponse.tryFromStr "" =
      some (Except.error (DaemonError.unknownResponse "")) ∧
    DaemonResponse.tryFromStr "BOGUS x" =
      some (Except.error (DaemonError.unknownResponse "BOGUS x")) ∧
    DaemonResponse.tryFromStr "" ≠ some (Except.error DaemonError.emptyResponse) := by
  refine ⟨rfl, rfl, by decide⟩

/-! ## Claim C10 -/

/-- On a list without a space, `splitFirstSpace` returns the whole list. -/
theorem splitFirstSpace_no_space :
    ∀ (k : List Char), ' ' ∉ k → splitFirstSpace k = (k, none) := by
  intro k h
  induction k with
  | nil => rfl
  | cons c rest ih =>
    have hc : ¬ c = ' ' := fun hcc => h (hcc ▸ List.mem_cons_self c rest)
    have hrest : ' ' ∉ rest := fun hm => h (List.mem_cons_of_mem c hm)
    rw [splitFirstSpace, if_neg hc, ih hrest]

/-- C10: `DaemonResponse::try_from_str` is not total: the bare keyword lines
`FATAL`, `STDOUT` and `STDERR`, and any `FATAL <kind>` line with a kind but
no message, panic on unwrapping a missing token (modelled as `none`) instead
of returning a response or an error. -/
theorem daemon_response_missing_token_panics :
    DaemonResponse.tryFromStr "FATAL" = none ∧
    DaemonResponse.tryFromStr "STDOUT" = none ∧
    DaemonResponse.tryFromStr "STDERR" = none ∧
    (∀ k : List Char, ' ' ∉ k →
      DaemonResponse.tryFromStr ⟨'F' :: 'A' :: 'T' :: 'A' :: 'L' :: ' ' :: k⟩ =
        none) := by
  refine ⟨rfl, rfl, rfl, ?_⟩
  intro k hk
  have hs : splitn3Space ('F' :: 'A' :: 'T' :: 'A' :: 'L' :: ' ' :: k) =
      [['F', 'A', 'T', 'A', 'L'], k] := by
    show (match splitFirstSpace k with
      | (p2, none) => [['F', 'A', 'T', 'A', 'L'], p2]
      | (p2, some r2) => [['F', 'A', 'T', 'A', 'L'], p2, r2]) =
        [['F', 'A', 'T', 'A', 'L'], k]
    rw [splitFirstSpace_no_space k hk]
  rw [DaemonResponse.tryFromStr]
  rw [show (String.mk ('F' :: 'A' :: 'T' :: 'A' :: 'L' :: ' ' :: k)).data =
    'F' :: 'A' :: 'T' :: 'A' :: 'L' :: ' ' :: k from rfl]
  rw [hs]
  rfl

/-- Closed witness for C10: a `FATAL` line with a kind but no message. -/
theorem daemon_response_missing_token_panics_witness :
    DaemonResponse.tryFromStr "FATAL MemoryError" = none :=
  daemon_response_missing_token_panics.2.2.2 "MemoryError".data (by decide)

/-! ## Claim C9 -/

/-- The text contains a literal backslash-n escape pair. -/
def hasEscapedNewline : List Char → Bool
  | c1 :: c2 :: rest =>
    if c1 = '\\' ∧ c2 = 'n' then true else hasEscapedNewline (c2 :: rest)
  | _ => false

/-- The text contains two consecutive newline characters. -/
def hasDoubleNewline : List Char → Bool
  | c1 :: c2 :: rest =>
    if c1 = '\n' ∧ c2 = '\n' then true else hasDoubleNewline (c2 :: rest)
  | _ => false

/-- The text contains three consecutive newline characters. -/
def hasTripleNewline : List Char → Bool
  | c1 :: c2 :: c3 :: rest =>
    if c1 = '\n' ∧ c2 = '\n' ∧ c3 = '\n' then true
    else hasTripleNewline (c2 :: c3 :: rest)
  | _ => false

/-- Counterexample for C9 as stated: the TRACEBACK payload holding three
escaped newlines decodes, after the single collapsing pass, to text that
still contains two consecutive newline characters. -/
theorem traceback_decode_counterexample :
    DaemonResponse.tryFromStr "TRACEBACK \\n\\n\\n" =
      some (Except.ok (DaemonResponse.Traceback "\n\n")) ∧
    hasDoubleNewline ("\n\n").data = true := ⟨rfl, rfl⟩

/-- Dropping the head preserves triple-newline freedom. -/
theorem hasTripleNewline_tail (c : Char) (l : List Char)
    (h : hasTripleNewline (c :: l) = false) : hasTripleNewline l = false := by
  cases l with
  | nil => rfl
  | cons c2 rest =>
    cases rest with
    | nil => rfl
    | cons c3 rest2 =>
      rw [hasTripleNewline] at h
      by_cases hc : c = '\n' ∧ c2 = '\n' ∧ c3 = '\n'
      · rw [if_pos hc] at h; exact absurd h (by simp)
      · rw [if_neg hc] at h; exact h

/-- `collapseNewlines` preserves the head character. -/
theorem collapseNewlines_head (c : Char) (l : List Char) :
    ∃ t, collapseNewlines (c :: l) = c :: t := by
  cases l with
  | nil => exact ⟨[], rfl⟩
  | cons c2 rest =>
    rw [collapseNewlines]
    by_cases h : c = '\n' ∧ c2 = '\n'
    · rw [if_pos h]; exact ⟨collapseNewlines rest, by rw [h.1]⟩
    · rw [if_neg h]; exact ⟨collapseNewlines (c2 :: rest), rfl⟩

/-- The head of a decoded text is the original head or a decoded newline. -/
theorem decodeEscapes_head (c : Char) (l : List Char) :
    (decodeEscapes (c :: l)).head? = some c ∨
      (decodeEscapes (c :: l)).head? = some '\n' := by
  cases l with
  | nil => exact Or.inl rfl
  | cons c2 rest =>
    rw [decodeEscapes]
    by_cases h : c = '\\' ∧ c2 = 'n'
    · rw [if_pos h]; exact Or.inr rfl
    · rw [if_neg h]; exact Or.inl rfl

/-- Prepending a character that does not form an escape pair with the head
preserves escape freedom. -/
theorem hasEscapedNewline_cons_false (a : Char) (l : List Char)
    (h1 : ∀ b, l.head? = some b → ¬(a = '\\' ∧ b = 'n'))
    (h2 : hasEscapedNewline l = false) :
    hasEscapedNewline (a :: l) = false := by
  cases l with
  | nil => rfl
  | cons b rest =>
    rw [hasEscapedNewline, if_neg (h1 b rfl)]
    exact h2

/-- After `decodeEscapes`, no literal backslash-n escape pair remains. -/
theorem decodeEscapes_no_escape :
    ∀ s : List Char, hasEscapedNewline (decodeEscapes s) = false := by
  intro s
  induction s using decodeEscapes.induct with
  | case1 => rfl
  | case2 c => rfl
  | case3 c1 c2 rest h ih =>
    rw [decodeEscapes, if_pos h]
    refine hasEscapedNewline_cons_false _ _ ?_ ih
    intro b _ hab
    exact absurd hab.1 (by decide)
  | case4 c1 c2 rest h ih =>
    rw [decodeEscapes, if_neg h]
    refine hasEscapedNewline_cons_false _ _ ?_ ih
    intro b hb hab
    rcases decodeEscapes_head c2 rest with hh | hh
    · rw [hh] at hb
      exact h ⟨hab.1, Option.some.inj hb ▸ hab.2⟩
    · rw [hh] at hb
      have : b = '\n' := (Option.some.inj hb).symm
      rw [this] at hab
      exact absurd hab.2 (by decide)

/-- A single collapsing pass removes all doubled newlines provided the input
has no run of three newlines. -/
theorem collapseNewlines_no_double :
    ∀ l : List Char, hasTripleNewline l = false →
      hasDoubleNewline (collapseNewlines l) = false := by
  intro l
  induction l using collapseNewlines.induct with
  | case1 => intro _; rfl
  | case2 c => intro _; rfl
  | case3 c1 c2 rest hc ih =>
    intro h
    rw [collapseNewlines, if_pos hc]
    obtain ⟨hc1, hc2⟩ := hc
    subst hc1; subst hc2
    cases rest with
    | nil => rfl
    | cons c3 rest2 =>
      rw [hasTripleNewline] at h
      by_cases h3 : c3 = '\n'
      · rw [if_pos ⟨rfl, rfl, h3⟩] at h
        exact absurd h (by simp)
      · rw [if_neg (fun hx => h3 hx.2.2)] at h
        have htail : hasTripleNewline (c3 :: rest2) = false :=
          hasTripleNewline_tail _ _ h
        obtain ⟨t, ht⟩ := collapseNewlines_head c3 rest2
        rw [ht, hasDoubleNewline, if_neg (fun hx => h3 hx.2), ← ht]
        exact ih htail
  | case4 c1 c2 rest hc ih =>
    intro h
    rw [collapseNewlines, if_neg hc]
    have htail : hasTripleNewline (c2 :: rest) = false :=
      hasTripleNewline_tail _ _ h
    obtain ⟨t, ht⟩ := collapseNewlines_head c2 rest
    rw [ht, hasDoubleNewline, if_neg hc, ← ht]
    exact ih htail

/-- C9 (amended): parsing a TRACEBACK record decodes every literal
backslash-n escape into a newline — no escape pair remains — and collapses
doubled newlines in a single left-to-right pass, so the decoded text has no
two consecutive newlines provided the escape-decoded payload has no run of
three or more newlines (a run of three survives as a doubled newline). -/
theorem traceback_decode_amended :
    (∀ s : List Char, hasEscapedNewline (decodeEscapes s) = false) ∧
    (∀ p : String, hasTripleNewline (decodeEscapes p.data) = false →
      hasDoubleNewline (decodeTraceback p).data = false) := by
  refine ⟨decodeEscapes_no_escape, ?_⟩
  intro p h
  exact collapseNewlines_no_double _ h

/-- Closed witness for C9's amended theorem at a concrete payload. -/
theorem traceback_decode_amended_witness :
    hasEscapedNewline (decodeEscapes ("a\\nb").data) = false ∧
    (hasTripleNewline (decodeEscapes ("a\\nb\\n\\nc").data) = false ∧
      hasDoubleNewline (decodeTraceback "a\\nb\\n\\nc").data = false) := by
  obtain ⟨h1, h2⟩ := traceback_decode_amended
  exact ⟨h1 _, by decide, h2 "a\\nb\\n\\nc" (by decide)⟩

/-! ## Claims C5 and C6: the run_hook read loop -/

/-- The read loop of `Pep517Daemon::run_hook` (daemon.rs lines 309-327) over
the stream of parsed responses, with `receive_until_actionable` (daemon.rs
lines 249-272) inlined: `Debug` and `Expect` are skipped, `Fatal` consumes
the next raw record as its traceback and fails with `crashed`; the hook loop
skips `Stdout`/`Stderr`, returns the `Ok` payload, consumes the next raw
record on `Error` and fails with `hookError` (the error kind is bound as
`_kind` and discarded), and fails with `unexpectedResponse` on any other
actionable record. An exhausted stream models `receive_one` hitting EOF,
which fails with `closed`. -/
def runHookLoop : List DaemonResponse → Except DaemonError String
  | [] => Except.error DaemonError.closed
  | DaemonResponse.Debug _ :: rest => runHookLoop rest
  | DaemonResponse.Expect _ :: rest => runHookLoop rest
  | DaemonResponse.Fatal kind msg :: rest =>
    match rest with
    | [] => Except.error DaemonError.closed
    | DaemonResponse.Traceback t :: _ => Except.error (DaemonError.crashed kind msg t)
    | _ :: _ => Except.error (DaemonError.crashed kind msg "")
  | DaemonResponse.Stderr _ :: rest => runHookLoop rest
  | DaemonResponse.Stdout _ :: rest => runHookLoop rest
  | DaemonResponse.Ok result :: _ => Except.ok result
  | DaemonResponse.Error _ msg :: rest =>
    match rest with
    | [] => Except.error DaemonError.closed
    | DaemonResponse.Traceback t :: _ => Except.error (DaemonError.hookError msg t)
    | _ :: _ => Except.error (DaemonError.hookError msg "")
  | r :: _ => Except.error (DaemonError.unexpectedResponse r)

/-- Counterexample for C5 as stated: two `ERROR` records differing only in
their kind produce the *same* `hookError` carrying only the message and the
traceback — the error does not carry the kind (daemon.rs line 315 binds it
as `_kind`; line 323 drops it). -/
theorem run_hook_kind_discarded :
    runHookLoop [DaemonResponse.Error HookErrorKind.InvalidAction "boom",
        DaemonResponse.Traceback "tb"] =
      Except.error (DaemonError.hookError "boom" "tb") ∧
    runHookLoop [DaemonResponse.Error HookErrorKind.HookRuntimeError "boom",
        DaemonResponse.Traceback "tb"] =
      Except.error (DaemonError.hookError "boom" "tb") := ⟨rfl, rfl⟩

/-- C5 (amended): after writing the command block, `run_hook` skips `STDOUT`
and `STDERR` records (and, via `receive_until_actionable`, `DEBUG` and
`EXPECT`); on `OK` it returns the payload; on `ERROR(kind, message)` it reads
the immediately following record, takes its text as the traceback when it is
a `TRACEBACK` and the empty string otherwise, and fails with a `hookError`
carrying the message and the traceback (the kind is discarded); on any other
actionable record it fails with `unexpectedResponse`. -/
theorem run_hook_responses_spec :
    (∀ p rest, runHookLoop (DaemonResponse.Stdout p :: rest) = runHookLoop rest) ∧
    (∀ p rest, runHookLoop (DaemonResponse.Stderr p :: rest) = runHookLoop rest) ∧
    (∀ s rest, runHookLoop (DaemonResponse.Debug s :: rest) = runHookLoop rest) ∧
    (∀ s rest, runHookLoop (DaemonResponse.Expect s :: rest) = runHookLoop rest) ∧
    (∀ r rest, runHookLoop (DaemonResponse.Ok r :: rest) = Except.ok r) ∧
    (∀ k msg t rest,
      runHookLoop (DaemonResponse.Error k msg :: DaemonResponse.Traceback t :: rest) =
        Except.error (DaemonError.hookError msg t)) ∧
    (∀ k msg r rest, (∀ t, r ≠ DaemonResponse.Traceback t) →
      runHookLoop (DaemonResponse.Error k msg :: r :: rest) =
        Except.error (DaemonError.hookError msg "")) ∧
    (∀ k msg, runHookLoop [DaemonResponse.Error k msg] =
      Except.error DaemonError.closed) ∧
    (∀ rest, runHookLoop (DaemonResponse.Ready :: rest) =
      Except.error (DaemonError.unexpectedResponse DaemonResponse.Ready)) ∧
    (∀ rest, runHookLoop (DaemonResponse.Shutdown :: rest) =
      Except.error (DaemonError.unexpectedResponse DaemonResponse.Shutdown)) ∧
    (∀ t rest, runHookLoop (DaemonResponse.Traceback t :: rest) =
      Except.error (DaemonError.unexpectedResponse (DaemonResponse.Traceback t))) := by
  refine ⟨fun _ _ => rfl, fun _ _ => rfl, fun _ _ => rfl, fun _ _ => rfl,
    fun _ _ => rfl, fun _ _ _ _ => rfl, ?_, fun _ _ => rfl, fun _ => rfl,
    fun _ => rfl, fun _ _ => rfl⟩
  intro k msg r rest h
  cases r with
  | Traceback t => exact absurd rfl (h t)
  | Debug s => rfl
  | Error k2 m2 => rfl
  | Ok s => rfl
  | Stderr p => rfl
  | Stdout p => rfl
  | Expect s => rfl
  | Ready => rfl
  | Fatal k2 m2 => rfl
  | Shutdown => rfl

/-- Closed witness for C5's amended theorem: the non-traceback follow-up
record yields an empty traceback. -/
theorem run_hook_responses_spec_witness :
    runHookLoop [DaemonResponse.Error HookErrorKind.HookRuntimeError "boom2",
        DaemonResponse.Ready] =
      Except.error (DaemonError.hookError "boom2" "") :=
  run_hook_responses_spec.2.2.2.2.2.2.1 HookErrorKind.HookRuntimeError "boom2"
    DaemonResponse.Ready [] (fun t => by simp)

/-- `Pep517Daemon::prepare_metadata_for_build` (daemon.rs lines 334-348):
`PathBuf::from_str` is infallible, and the hook result is always wrapped in
`Some`. -/
def prepareMetadataForBuild (responses : List DaemonResponse) :
    Except DaemonError (Option String) :=
  match runHookLoop responses with
  | Except.error e => Except.error e
  | Except.ok result => Except.ok (some result)

/-- Counterexample for C6 as stated (its negation): there is no stream of
responses on which `prepare_metadata_for_build` succeeds with no path — the
claimed declining outcome does not exist in the code. -/
theorem prepare_metadata_never_declines :
    ¬ ∃ responses, prepareMetadataForBuild responses = Except.ok none := by
  rintro ⟨rs, h⟩
  rw [prepareMetadataForBuild] at h
  cases hr : runHookLoop rs with
  | error e => rw [hr] at h; exact absurd h (by simp)
  | ok r => rw [hr] at h; simp at h

/-- C6 (amended): on success `prepare_metadata_for_build` always returns
`Some` of the path parsed from the `OK` payload (interpreted by the caller
relative to the supplied output directory); it never returns an empty
result, even when the backend declines. -/
theorem prepare_metadata_returns_some :
    ∀ responses result, runHookLoop responses = Except.ok result →
      prepareMetadataForBuild responses = Except.ok (some result) := by
  intro rs r h
  rw [prepareMetadataForBuild, h]

/-- Closed witness for C6's amended theorem. -/
theorem prepare_metadata_returns_some_witness :
    prepareMetadataForBuild [DaemonResponse.Ok "pkg.dist-info"] =
      Except.ok (some "pkg.dist-info") :=
  prepare_metadata_returns_some [DaemonResponse.Ok "pkg.dist-info"]
    "pkg.dist-info" rfl

/-! ## Claim C7: get_requires_for_build payload parsing -/

/-- A character allowed in a package name. -/
def nameChar (c : Char) : Bool :=
  c.isAlphanum || c = '-' || c = '_' || c = '.'

/-- A character allowed in a version literal. -/
def versionChar (c : Char) : Bool :=
  c.isAlphanum || c = '.' || c = '*' || c = '+' || c = '!' || c = '-'

/-- Drop leading ASCII spaces. -/
def dropSpaces (l : List Char) : List Char :=
  l.dropWhile (fun c => c = ' ')

/-- Parse a pep440 comparison operator from the head of the input. -/
def parseOp (l : List Char) : Option (String × List Char) :=
  match l with
  | '=' :: '=' :: '=' :: rest => some ("===", rest)
  | '=' :: '=' :: rest => some ("==", rest)
  | '!' :: '=' :: rest => some ("!=", rest)
  | '<' :: '=' :: rest => some ("<=", rest)
  | '>' :: '=' :: rest => some (">=", rest)
  | '~' :: '=' :: rest => some ("~=", rest)
  | '<' :: rest => some ("<", rest)
  | '>' :: rest => some (">", rest)
  | _ => none

/-- Parse a comma-separated list of `op version` specifiers (fuel-bounded). -/
def parseSpecsAux : Nat → List Char → Option (List (String × String))
  | 0, _ => none
  | fuel + 1, l =>
    match parseOp (dropSpaces l) with
    | none => none
    | some (op, rest) =>
      let rest1 := dropSpaces rest
      let ver := rest1.takeWhile versionChar
      if ver = [] then none
      else
        let rest2 := dropSpaces (rest1.drop ver.length)
        match rest2 with
        | [] => some [(op, ⟨ver⟩)]
        | ',' :: r =>
          match parseSpecsAux fuel r with
          | none => none
          | some sp => some ((op, ⟨ver⟩) :: sp)
        | _ => none

/-- Parse the version-specifier suffix of a requirement. -/
def parseSpecs (l : List Char) : Option (List (String × String)) :=
  parseSpecsAux (l.length + 1) l

/-- `pep508_rs::Requirement`, reduced to the parts the daemon consumes. -/
structure Requirement508 where
  name : String
  specifiers : List (String × String)
deriving DecidableEq

/-- Modelled from the spec: `pep508_rs::Requirement::from_str` is not under
`src/`; a requirement specifier is a package name optionally followed by
comma-separated `op version` specifiers, and parsing fails on anything else
(in particular on a name followed by a bare word, as in `bad req`). -/
def parseRequirement (s : String) : Option Requirement508 :=
  let l := s.data
  let name := l.takeWhile nameChar
  if name = [] then none
  else
    let rest := dropSpaces (l.drop name.length)
    if rest = [] then some ⟨⟨name⟩, []⟩
    else
      match parseSpecs rest with
      | none => none
      | some sp => some ⟨⟨name⟩, sp⟩

/-- Modelled from the spec: the textual rendering of the requirement-parse
error stored as the second field of `InvalidResult`. -/
def reqParseReason : String := "invalid requirement specifier"

/-- Rust's `split(", ")`: non-overlapping left-to-right split on the
two-character comma-space separator. -/
def splitCommaSpace : List Char → List (List Char)
  | ',' :: ' ' :: rest => [] :: splitCommaSpace rest
  | c :: rest =>
    match splitCommaSpace rest with
    | [] => [[c]]
    | h :: t => (c :: h) :: t
  | [] => [[]]

/-- `strip_prefix('\u{27}').and_then(strip_suffix('\u{27}'))`: strip one
single-quote from each end. -/
def stripQuotes (l : List Char) : Option (List Char) :=
  match l with
  | '\'' :: rest =>
    match rest.reverse with
    | '\'' :: mid => some mid.reverse
    | _ => none
  | _ => none

/-- `collect::<Result<Vec<Requirement>, _>>()` over the parsed elements: the
first malformed element fails with `invalidResult` carrying that element. -/
def collectRequirements : List String → Except DaemonError (List Requirement508)
  | [] => Except.ok []
  | s :: rest =>
    match parseRequirement s with
    | none => Except.error (DaemonError.invalidResult s reqParseReason)
    | some r =>
      match collectRequirements rest with
      | Except.error e => Except.error e
      | Except.ok rs => Except.ok (r :: rs)

/-- The payload parsing of `Pep517Daemon::get_requires_for_build` (daemon.rs
lines 366-385): strip the outer brackets (panicking — `none` — when either
is missing), split on comma-space, strip quotes from each element
(`.filter(is_some).map(unwrap)` is `filterMap`), drop empty elements, and
parse each remaining element as a requirement specifier. -/
def parseRequiresPayload (payload : String) :
    Option (Except DaemonError (List Requirement508)) :=
  match payload.data with
  | '[' :: rest =>
    match rest.reverse with
    | ']' :: midrev =>
      let inner := midrev.reverse
      let elems := splitCommaSpace inner
      let stripped := elems.filterMap stripQuotes
      let nonempty := stripped.filter (fun e => !e.isEmpty)
      some (collectRequirements (nonempty.map (fun e => (⟨e⟩ : String))))
    | _ => none
  | _ => none

/-- `Pep517Daemon::get_requires_for_build` (daemon.rs lines 353-386): run the
hook, then parse the `OK` payload. -/
def getRequiresForBuild (responses : List DaemonResponse) :
    Option (Except DaemonError (List Requirement508)) :=
  match runHookLoop responses with
  | Except.error e => some (Except.error e)
  | Except.ok payload => parseRequiresPayload payload

/-- The payload text `['bad req', '']`, built character by character. -/
def payloadBadReq : String :=
  ⟨['[', '\'', 'b', 'a', 'd', ' ', 'r', 'e', 'q', '\'', ',', ' ', '\'', '\'', ']']⟩

/-- The payload text `['wheel', 'setuptools>=42']`. -/
def payloadGood : String :=
  ⟨['[', '\'', 'w', 'h', 'e', 'e', 'l', '\'', ',', ' ', '\'', 's', 'e', 't',
    'u', 'p', 't', 'o', 'o', 'l', 's', '>', '=', '4', '2', '\'', ']']⟩

/-- C7: `get_requires_for_build` strips the outer square brackets, splits on
comma-space, strips the single quotes, drops empty elements, and parses each
remaining element; the payload `['bad req', '']` yields `invalidResult` whose
payload is `bad req`, and `['wheel', 'setuptools>=42']` yields the two
requirements `wheel` and `setuptools >= 42`. -/
theorem get_requires_parse_spec :
    getRequiresForBuild [DaemonResponse.Ok payloadBadReq] =
      some (Except.error (DaemonError.invalidResult "bad req" reqParseReason)) ∧
    getRequiresForBuild [DaemonResponse.Ok payloadGood] =
      some (Except.ok [⟨"wheel", []⟩, ⟨"setuptools", [(">=", "42")]⟩]) := by
  exact ⟨by decide, by decide⟩
